import Mathlib

/-!
Verification of the screenshot-comparison utility of this repository
(`visual/utils/screenshot_compare.py`, class `ScreenshotCompare`).

Images are modelled as already-decoded 8-bit RGB bitmaps: PIL's
`Image.open(path).convert("RGB")` is modelled as a lookup in a file store
mapping paths to decoded bitmaps (a lookup miss models the exception PIL
raises for a missing or undecodable file).  Python floats are modelled by
exact rationals; the quantities involved (sums of naturals divided by a
natural) are exactly representable wherever the claims speak about them.
-/

/-- An RGB pixel: one natural number per channel (a decoded image carries
values in `0..255`). -/
abbrev RGB : Type := ℕ × ℕ × ℕ

/-- A decoded bitmap as PIL presents it after `convert("RGB")`: the pixel
dimensions together with the row-major pixel list that `getdata()` returns. -/
structure Image where
  width : ℕ
  height : ℕ
  pixels : List RGB
deriving DecidableEq

/-- `img.size`, as in PIL: the pair `(width, height)`. -/
def Image.size (img : Image) : ℕ × ℕ := (img.width, img.height)

/-- Well-formedness of a decoded image: decoding a real PNG/JPEG yields at
least one pixel per axis, exactly `width*height` pixels, and 8-bit channel
values. -/
def Image.wf (img : Image) : Prop :=
  0 < img.width ∧ 0 < img.height ∧
    img.pixels.length = img.width * img.height ∧
    ∀ p ∈ img.pixels, p.1 ≤ 255 ∧ p.2.1 ≤ 255 ∧ p.2.2 ≤ 255

instance (img : Image) : Decidable img.wf := by
  unfold Image.wf; infer_instance

/-- The sum of the per-channel absolute differences of two pixels: one pixel
of `ImageChops.difference(img1, img2)`, collapsed by the inner `sum(pixel)`
of `compare_images`. -/
def chanDist (p q : RGB) : ℕ :=
  Nat.dist p.1 q.1 + Nat.dist p.2.1 q.2.1 + Nat.dist p.2.2 q.2.2

/-- `sum(sum(pixel) for pixel in diff.getdata())` of `compare_images`,
where `diff = ImageChops.difference(img1, img2)`. -/
def diffPixels (l1 l2 : List RGB) : ℕ :=
  (List.zipWith chanDist l1 l2).sum

/-- Core of `ScreenshotCompare.compare_images` on two decoded images
(lines 48-65 of `screenshot_compare.py`): if the sizes differ return
`(False, 1.0)` at once, otherwise divide the summed per-channel absolute
differences by `width * height * 3 * 255` and compare against the
threshold. -/
def compare_images_core (img1 img2 : Image) (threshold : ℚ) : Bool × ℚ :=
  if img1.size ≠ img2.size then (false, 1)
  else
    let diff_pixels : ℕ := diffPixels img1.pixels img2.pixels
    let total_pixels : ℕ := img1.width * img1.height * 3 * 255
    let difference : ℚ := (diff_pixels : ℚ) / (total_pixels : ℚ)
    (decide (difference ≤ threshold), difference)

/-- A file store: paths to decoded images.  `none` means the path does not
hold a decodable image (missing file or decode failure). -/
abbrev FS : Type := String → Option Image

/-- Writing an image file (`img.save(path)`). -/
def FS.write (fs : FS) (p : String) (img : Image) : FS :=
  fun q => if q = p then some img else fs q

/-- Deleting a file (`path.unlink()`). -/
def FS.erase (fs : FS) (p : String) : FS :=
  fun q => if q = p then none else fs q

/-- `ScreenshotCompare.compare_images` at the file level: open both paths
(PIL raises when either fails to decode), then run the pixel comparison.
The `ignore_antialiasing` flag is accepted, as in the source, and is not
read anywhere in the body. -/
def compare_images (fs : FS) (image1_path image2_path : String)
    (threshold : ℚ) (ignore_antialiasing : Bool) : Option (Bool × ℚ) :=
  match fs image1_path, fs image2_path with
  | some img1, some img2 => some (compare_images_core img1 img2 threshold)
  | _, _ => none

/-- The difference ratio exactly as the specification words it: the sum over
all pixel positions of the absolute per-channel RGB differences, normalized
by the maximum possible total `width * height * 3 * 255`.  This definition
is transcribed from the spec (not from the code) so that the code-derived
`compare_images_core` can be proved to refine it. -/
def specDifference (img1 img2 : Image) : ℚ :=
  ((((Finset.range (img1.width * img1.height)).sum fun k =>
      chanDist (img1.pixels.getD k (0, 0, 0)) (img2.pixels.getD k (0, 0, 0)) : ℕ)) : ℚ)
    / ((img1.width * img1.height * 3 * 255 : ℕ) : ℚ)

/-- A solid one-colour bitmap, used for the concrete scenarios of the spec. -/
def solidImage (w h : ℕ) (c : RGB) : Image :=
  ⟨w, h, List.replicate (w * h) c⟩

theorem zipWith_sum_eq_range_sum (f : RGB → RGB → ℕ) :
    ∀ (n : ℕ) (l1 l2 : List RGB), l1.length = n → l2.length = n →
      (List.zipWith f l1 l2).sum
        = (Finset.range n).sum fun k => f (l1.getD k (0, 0, 0)) (l2.getD k (0, 0, 0)) := by
  intro n
  induction n with
  | zero =>
    intro l1 l2 h1 h2
    rw [List.length_eq_zero] at h1 h2
    subst h1; subst h2
    simp
  | succ m ih =>
    intro l1 l2 h1 h2
    cases l1 with
    | nil => simp at h1
    | cons a t1 =>
      cases l2 with
      | nil => simp at h2
      | cons b t2 =>
        simp only [List.length_cons, Nat.succ.injEq] at h1 h2
        rw [Finset.sum_range_succ']
        simp only [List.zipWith_cons_cons, List.sum_cons, List.getD_cons_succ,
          List.getD_cons_zero]
        rw [ih t1 t2 h1 h2]
        omega

theorem diffPixels_self (l : List RGB) : diffPixels l l = 0 := by
  induction l with
  | nil => rfl
  | cons a t ih =>
    simp only [diffPixels, List.zipWith_cons_cons, List.sum_cons] at ih ⊢
    simp [chanDist, Nat.dist_self, ih]

theorem compare_images_core_self (img : Image) (t : ℚ) (ht : 0 ≤ t) :
    compare_images_core img img t = (true, 0) := by
  simp [compare_images_core, diffPixels_self, ht]

/-- Fixed one-pixel and solid sample bitmaps used by concrete witnesses. -/
def pxWhite : Image := solidImage 1 1 (255, 255, 255)

def pxBlack : Image := solidImage 1 1 (0, 0, 0)

def wideWhite : Image := solidImage 2 1 (255, 255, 255)

def solidWhite100 : Image := solidImage 100 100 (255, 255, 255)

def solidBlack100 : Image := solidImage 100 100 (0, 0, 0)

theorem solidImage_wf (w h : ℕ) (c : RGB) (hw : 0 < w) (hh : 0 < h)
    (h1 : c.1 ≤ 255) (h2 : c.2.1 ≤ 255) (h3 : c.2.2 ≤ 255) :
    (solidImage w h c).wf := by
  refine ⟨hw, hh, by simp [solidImage], ?_⟩
  intro p hp
  simp only [solidImage, List.mem_replicate] at hp
  rw [hp.2]
  exact ⟨h1, h2, h3⟩

theorem getD_replicate (n k : ℕ) (a d : RGB) (h : k < n) :
    (List.replicate n a).getD k d = a := by
  induction n generalizing k with
  | zero => omega
  | succ m ih =>
    cases k with
    | zero => simp [List.replicate_succ]
    | succ j =>
      rw [List.replicate_succ, List.getD_cons_succ]
      exact ih j (by omega)

theorem specDifference_white_black :
    specDifference solidWhite100 solidBlack100 = 1 := by
  unfold specDifference solidWhite100 solidBlack100 solidImage
  have hconst : ∀ k ∈ Finset.range (100 * 100),
      chanDist ((List.replicate (100 * 100) ((255, 255, 255) : RGB)).getD k (0, 0, 0))
        ((List.replicate (100 * 100) ((0, 0, 0) : RGB)).getD k (0, 0, 0)) = 765 := by
    intro k hk
    rw [getD_replicate _ _ _ _ (Finset.mem_range.mp hk),
      getD_replicate _ _ _ _ (Finset.mem_range.mp hk)]
    rfl
  rw [Finset.sum_congr rfl hconst]
  simp only [Finset.sum_const, Finset.card_range, smul_eq_mul]
  norm_num

/-- C1: for same-size decodable images and a threshold in `[0,1]`,
`compare_images` returns the spec's difference ratio (summed absolute
per-channel differences over `width*height*3*255`), and `is_similar` holds
exactly when that ratio is at most the threshold. -/
theorem compare_images_difference_formula (img1 img2 : Image)
    (h1 : img1.wf) (h2 : img2.wf) (hsz : img1.size = img2.size)
    (t : ℚ) (ht0 : 0 ≤ t) (ht1 : t ≤ 1) :
    compare_images_core img1 img2 t
      = (decide (specDifference img1 img2 ≤ t), specDifference img1 img2) := by
  have hwh : img2.width = img1.width ∧ img2.height = img1.height := by
    have h := hsz
    simp only [Image.size, Prod.mk.injEq] at h
    exact ⟨h.1.symm, h.2.symm⟩
  have hlen1 : img1.pixels.length = img1.width * img1.height := h1.2.2.1
  have hlen2 : img2.pixels.length = img1.width * img1.height := by
    rw [h2.2.2.1, hwh.1, hwh.2]
  have hnum := zipWith_sum_eq_range_sum chanDist (img1.width * img1.height)
    img1.pixels img2.pixels hlen1 hlen2
  have hsz' : ¬ img1.size ≠ img2.size := by simp [hsz]
  simp only [compare_images_core, if_neg hsz']
  have hq : ((diffPixels img1.pixels img2.pixels : ℕ) : ℚ)
      / ((img1.width * img1.height * 3 * 255 : ℕ) : ℚ)
      = specDifference img1 img2 := by
    unfold specDifference diffPixels
    rw [hnum]
  exact congrArg (fun d : ℚ => (decide (d ≤ t), d)) hq

/-- C1 witness: the spec's regression scenario, a solid white against a
solid black 100 by 100 image, yields ratio exactly one and fails any
threshold below one. -/
theorem compare_images_difference_formula_witness :
    compare_images_core solidWhite100 solidBlack100 (1 / 2) = (false, 1) := by
  have h := compare_images_difference_formula solidWhite100 solidBlack100
    (solidImage_wf 100 100 (255, 255, 255) (by norm_num) (by norm_num)
      (by norm_num) (by norm_num) (by norm_num))
    (solidImage_wf 100 100 (0, 0, 0) (by norm_num) (by norm_num)
      (by norm_num) (by norm_num) (by norm_num))
    rfl (1 / 2) (by norm_num) (by norm_num)
  rw [specDifference_white_black] at h
  rw [h]
  norm_num

/-- C2: decodable images of different pixel dimensions always compare as
`(False, 1.0)`, whatever their content and the threshold. -/
theorem compare_images_dimension_mismatch (img1 img2 : Image)
    (h1 : img1.wf) (h2 : img2.wf) (t : ℚ) (hsz : img1.size ≠ img2.size) :
    compare_images_core img1 img2 t = (false, 1) := by
  rw [compare_images_core, if_pos hsz]

/-- C2 witness: a 1 by 1 against a 2 by 1 image. -/
theorem compare_images_dimension_mismatch_witness :
    compare_images_core pxWhite wideWhite 0 = (false, 1) :=
  compare_images_dimension_mismatch pxWhite wideWhite (by decide) (by decide) 0
    (by decide)

/-- C9: comparing any decodable image with itself yields `(True, 0.0)` for
every nonnegative threshold. -/
theorem compare_images_identity (img : Image) (himg : img.wf)
    (t : ℚ) (ht : 0 ≤ t) :
    compare_images_core img img t = (true, 0) :=
  compare_images_core_self img t ht

/-- C9 witness at a concrete one-pixel image and threshold zero. -/
theorem compare_images_identity_witness :
    compare_images_core pxWhite pxWhite 0 = (true, 0) :=
  compare_images_identity pxWhite (by decide) 0 le_rfl

/-- C10: the `ignore_antialiasing` flag is accepted and never read: the two
results of `compare_images` agree whatever value the flag takes. -/
theorem compare_images_antialiasing_flag_unused (fs : FS) (p1 p2 : String)
    (t : ℚ) : ∀ a b : Bool,
      compare_images fs p1 p2 t a = compare_images fs p1 p2 t b :=
  fun _ _ => rfl

/-- The comparator's configuration: the two directories fixed by
`ScreenshotCompare.__init__` (defaults `visual/baselines` and
`visual/diffs`).  The constructor's `mkdir` calls touch no image file and
are not modelled. -/
structure ScreenshotCompare where
  baseline_dir : String := "visual/baselines"
  diff_dir : String := "visual/diffs"

/-- `self.baseline_dir / f"{name}.png"`, rendered as a string path. -/
def ScreenshotCompare.baselinePath (sc : ScreenshotCompare) (name : String) : String :=
  sc.baseline_dir ++ "/" ++ name ++ ".png"

/-- `self.diff_dir / f"{name}_diff.png"`, rendered as a string path. -/
def ScreenshotCompare.diffPath (sc : ScreenshotCompare) (name : String) : String :=
  sc.diff_dir ++ "/" ++ name ++ "_diff.png"

/-- `self.diff_dir / "temp_region1.png"` of `compare_regions`. -/
def ScreenshotCompare.tempPath1 (sc : ScreenshotCompare) : String :=
  sc.diff_dir ++ "/temp_region1.png"

/-- `self.diff_dir / "temp_region2.png"` of `compare_regions`. -/
def ScreenshotCompare.tempPath2 (sc : ScreenshotCompare) : String :=
  sc.diff_dir ++ "/temp_region2.png"

/-- Row-major pixel access; out-of-range positions give black, as PIL pads
crops that reach outside the source. -/
def Image.getPixel (img : Image) (r c : ℕ) : RGB :=
  img.pixels.getD (r * img.width + c) (0, 0, 0)

/-- `Image.new("RGB", (w, h))`: a black canvas. -/
def Image.new (w h : ℕ) : Image :=
  ⟨w, h, List.replicate (w * h) (0, 0, 0)⟩

/-- `canvas.paste(img, (x0, y0))`: pixels inside the pasted rectangle come
from `img`, the rest keep the canvas's value. -/
def paste (canvas img : Image) (x0 y0 : ℕ) : Image :=
  { canvas with
    pixels := (List.range (canvas.width * canvas.height)).map fun i =>
      let r := i / canvas.width
      let c := i % canvas.width
      if y0 ≤ r ∧ r < y0 + img.height ∧ x0 ≤ c ∧ c < x0 + img.width then
        img.getPixel (r - y0) (c - x0)
      else canvas.getPixel r c }

/-- `ImageChops.difference`: the per-channel absolute difference image (the
two arguments have equal dimensions at every call site that is modelled). -/
def diffImage (a b : Image) : Image :=
  ⟨a.width, a.height,
    List.zipWith
      (fun p q => (Nat.dist p.1 q.1, Nat.dist p.2.1 q.2.1, Nat.dist p.2.2 q.2.2))
      a.pixels b.pixels⟩

/-- `diff.point(lambda x: x * 10)`: each 8-bit channel value is multiplied
by ten and clipped to the channel maximum 255. -/
def point10 (img : Image) : Image :=
  { img with
    pixels := img.pixels.map fun p =>
      (min (p.1 * 10) 255, min (p.2.1 * 10) 255, min (p.2.2 * 10) 255) }

/-- `img.crop((left, top, right, bottom))`: a `(right-left) x (bottom-top)`
bitmap sampled from the source (PIL fills out-of-range samples with black). -/
def crop (img : Image) (region : ℕ × ℕ × ℕ × ℕ) : Image :=
  match region with
  | (left, top, right, bottom) =>
    ⟨right - left, bottom - top,
      (List.range ((bottom - top) * (right - left))).map fun i =>
        img.getPixel (top + i / (right - left)) (left + i % (right - left))⟩

/-- Models PIL `img.resize((w, h))`: the result has exactly the requested
dimensions.  PIL's resampling kernel (bicubic by default) is abstracted;
this model samples nearest-neighbour.  Theorems rely only on the dimension
contract, matching the spec's statement that the resize is cosmetic. -/
def resize (img : Image) (w h : ℕ) : Image :=
  ⟨w, h,
    (List.range (h * w)).map fun i =>
      img.getPixel (i / w * img.height / h) (i % w * img.width / w)⟩

/-- The local `current` of `create_diff_image` after its size guard: the
candidate is stretched to the baseline's dimensions when they differ,
purely so the panels can sit side by side. -/
def layoutCurrent (baseline current : Image) : Image :=
  if baseline.size ≠ current.size then resize current baseline.width baseline.height
  else current

/-- The composite that `create_diff_image` saves: a canvas three baseline
widths wide and one baseline height tall, with the baseline pasted at the
left, the (possibly resized) candidate in the middle, and the amplified
difference at the right. -/
def diffComposite (baseline current0 : Image) : Image :=
  let current := layoutCurrent baseline current0
  let d := point10 (diffImage baseline current)
  let comparison := Image.new (baseline.width * 3) baseline.height
  let comparison := paste comparison baseline 0 0
  let comparison := paste comparison current baseline.width 0
  paste comparison d (baseline.width * 2) 0

/-- `ScreenshotCompare.create_diff_image` (lines 67-107): open both inputs,
build the side-by-side composite and save it at `output_path`.  `none`
models the exception PIL raises when an input fails to decode. -/
def create_diff_image (fs : FS) (baseline_path current_path output_path : String) :
    Option FS :=
  match fs baseline_path, fs current_path with
  | some baseline, some current0 =>
    some (fs.write output_path (diffComposite baseline current0))
  | _, _ => none

/-- `ScreenshotCompare.save_baseline` (lines 109-122): open the screenshot,
save it at `<baseline_dir>/<name>.png` (PNG saving is lossless, so the
stored bitmap equals the decoded input), return the baseline path. -/
def save_baseline (sc : ScreenshotCompare) (fs : FS) (screenshot_path name : String) :
    Option (String × FS) :=
  match fs screenshot_path with
  | some img => some (sc.baselinePath name, fs.write (sc.baselinePath name) img)
  | none => none

/-- `ScreenshotCompare.update_baseline` (lines 166-176): an alias of
`save_baseline`. -/
def update_baseline (sc : ScreenshotCompare) (fs : FS) (screenshot_path name : String) :
    Option (String × FS) :=
  save_baseline sc fs screenshot_path name

/-- `ScreenshotCompare.compare_with_baseline` (lines 124-164).  Returns the
`(is_similar, difference, diff_path_or_none)` triple together with the file
store after the call; `none` models an exception escaping the call. -/
def compare_with_baseline (sc : ScreenshotCompare) (fs : FS)
    (screenshot_path name : String) (threshold : ℚ) (save_diff : Bool) :
    Option ((Bool × ℚ × Option String) × FS) :=
  match fs (sc.baselinePath name) with
  | none =>
    match save_baseline sc fs screenshot_path name with
    | some (_, fs1) => some ((true, 0, none), fs1)
    | none => none
  | some baseline =>
    match fs screenshot_path with
    | none => none
    | some current =>
      let r := compare_images_core baseline current threshold
      if r.1 = false ∧ save_diff = true then
        match create_diff_image fs (sc.baselinePath name) screenshot_path
            (sc.diffPath name) with
        | some fs1 => some ((r.1, r.2, some (sc.diffPath name)), fs1)
        | none => none
      else some ((r.1, r.2, none), fs)

/-- `ScreenshotCompare.compare_regions` (lines 178-221).  The two crops are
saved under the fixed temp names, the temps are compared, then unlinked.
`compare_raises` injects an I/O failure inside the inner `compare_images`
call (PIL file operations can fail for environmental reasons, e.g. a
concurrent `clear_diffs` removing the temp files, which the repository's
own concurrency notes anticipate); the source has no `try/finally`, so
when the inner call raises, the two `unlink` statements never run and the
exception propagates with the temp files still on disk. -/
def compare_regions (sc : ScreenshotCompare) (fs : FS)
    (image1_path image2_path : String) (region : ℕ × ℕ × ℕ × ℕ)
    (threshold : ℚ) (compare_raises : Bool) :
    Except String (Bool × ℚ) × FS :=
  match fs image1_path with
  | none => (Except.error "cannot open image1", fs)
  | some img1 =>
    match fs image2_path with
    | none => (Except.error "cannot open image2", fs)
    | some img2 =>
      let region1 := crop img1 region
      let region2 := crop img2 region
      let fs1 := (fs.write sc.tempPath1 region1).write sc.tempPath2 region2
      if compare_raises then (Except.error "inner comparison raised", fs1)
      else
        match compare_images fs1 sc.tempPath1 sc.tempPath2 threshold true with
        | none => (Except.error "inner comparison raised", fs1)
        | some result =>
          (Except.ok result, (fs1.erase sc.tempPath1).erase sc.tempPath2)

/-- The deletion loop shared by `clear_diffs` and `clear_baselines`
(lines 249-257): unlink each globbed file in turn.  `unlink_fails` marks
the files whose `unlink()` raises (permissions, concurrent removal); a
raise propagates out of the bare `for` loop at once, leaving the failing
file and every later file untouched. -/
def unlink_all (files : List String) (fs : FS) (unlink_fails : String → Bool) :
    Except String Unit × FS :=
  match files with
  | [] => (Except.ok (), fs)
  | f :: rest =>
    if unlink_fails f then (Except.error f, fs)
    else unlink_all rest (fs.erase f) unlink_fails

/-- `ScreenshotCompare.clear_diffs`: `files` is the listing that
`self.diff_dir.glob("*.png")` yields. -/
def clear_diffs (files : List String) (fs : FS) (unlink_fails : String → Bool) :
    Except String Unit × FS :=
  unlink_all files fs unlink_fails

/-- `ScreenshotCompare.clear_baselines`: `files` is the listing that
`self.baseline_dir.glob("*.png")` yields. -/
def clear_baselines (files : List String) (fs : FS) (unlink_fails : String → Bool) :
    Except String Unit × FS :=
  unlink_all files fs unlink_fails

/-- Folding `FS.erase` over a file list, used to describe the state that
`clear_diffs` reaches before its first failing deletion. -/
def erase_all (fs : FS) (files : List String) : FS :=
  files.foldl FS.erase fs
def dsuffix : List Char := ['_', 'd', 'i', 'f', 'f']

theorem slash_not_mem_dsuffix : ('/' : Char) ∉ dsuffix := by decide

theorem no_slash_period (C : List Char) (hC : C.length = 4) :
    ∀ (k : ℕ) (n : List Char), n.length = k → C ++ '/' :: n ≠ n ++ dsuffix := by
  intro k
  induction k using Nat.strong_induction_on with
  | _ k ih =>
    intro n hn heq
    have heq' : (C ++ ['/']) ++ n = n ++ dsuffix := by
      simpa [List.append_assoc] using heq
    by_cases h5 : 5 ≤ n.length
    · have htd : n.take 5 ++ n.drop 5 = n := List.take_append_drop 5 n
      have hlen : (C ++ ['/']).length = (n.take 5).length := by
        simp [List.length_take, hC]
        omega
      have h1 : C ++ ['/'] = n.take 5 ∧ n = n.drop 5 ++ dsuffix := by
        apply List.append_inj ?_ hlen
        conv_lhs => rw [heq']
        rw [← List.append_assoc, htd]
      have heq2 : (C ++ ['/']) ++ n.drop 5 = n.drop 5 ++ dsuffix := by
        calc (C ++ ['/']) ++ n.drop 5 = n.take 5 ++ n.drop 5 := by rw [h1.1]
          _ = n := htd
          _ = n.drop 5 ++ dsuffix := h1.2
      exact ih (n.drop 5).length (by simp [List.length_drop]; omega) (n.drop 5) rfl
        (by simpa [List.append_assoc] using heq2)
    · push_neg at h5
      have htd : (C ++ ['/']).take n.length ++ (C ++ ['/']).drop n.length = C ++ ['/'] :=
        List.take_append_drop _ _
      have hlen : ((C ++ ['/']).take n.length).length = n.length := by
        simp [List.length_take, hC]
        omega
      have h1 : (C ++ ['/']).take n.length = n
          ∧ (C ++ ['/']).drop n.length ++ n = dsuffix := by
        apply List.append_inj ?_ hlen
        rw [← List.append_assoc, htd]
        exact heq'
      have hmem : ('/' : Char) ∈ C ++ ['/'] := by simp
      rw [← htd] at hmem
      rcases List.mem_append.mp hmem with hin | hin
      · exact slash_not_mem_dsuffix
          (h1.2 ▸ List.mem_append_right _ (h1.1 ▸ hin))
      · exact slash_not_mem_dsuffix (h1.2 ▸ List.mem_append_left _ hin)

theorem slash_name_png_ne (A B N : List Char) :
    (A ++ ("/" : String).data) ++ N ++ (".png" : String).data
      ≠ ((B ++ ("/" : String).data) ++ N) ++ ("_diff.png" : String).data := by
  intro h1
  have hsplit : ("_diff.png" : String).data
      = ("_diff" : String).data ++ (".png" : String).data := rfl
  rw [hsplit, ← List.append_assoc] at h1
  have h1' := (List.append_inj' h1 rfl).1
  -- h1' : (A ++ "/".data) ++ N = ((B ++ "/".data) ++ N) ++ "_diff".data
  have hlenA : A.length = B.length + 5 := by
    have hlen := congrArg List.length h1'
    simp at hlen
    omega
  have htdA : A.take B.length ++ A.drop B.length = A := List.take_append_drop _ _
  have h2 : A.take B.length ++ (A.drop B.length ++ (("/" : String).data ++ N))
      = B ++ (("/" : String).data ++ (N ++ ("_diff" : String).data)) := by
    rw [← List.append_assoc, ← List.append_assoc, htdA, h1']
    simp [List.append_assoc]
  have hlentake : (A.take B.length).length = B.length := by
    simp [List.length_take]
    omega
  have h3 := List.append_inj h2 hlentake
  have hCl : (A.drop B.length).length = 5 := by
    simp [List.length_drop]
    omega
  have h4 := h3.2
  cases hc : A.drop B.length with
  | nil => rw [hc] at hCl; simp at hCl
  | cons c Ct =>
    rw [hc] at h4 hCl
    simp only [List.cons_append, List.singleton_append, List.nil_append,
      List.cons.injEq] at h4
    have hCt : Ct.length = 4 := by simp at hCl; omega
    have h6 : Ct ++ '/' :: N = N ++ dsuffix := by
      simpa [dsuffix] using h4.2
    exact no_slash_period Ct hCt N.length N rfl h6

/-- For one and the same `name`, the baseline file `<baseline_dir>/<name>.png`
and the diff artifact `<diff_dir>/<name>_diff.png` are always distinct
paths, whatever the two directories are: writing the diff artifact can
never touch the baseline file. -/
theorem baselinePath_ne_diffPath (sc : ScreenshotCompare) (n : String) :
    sc.baselinePath n ≠ sc.diffPath n := by
  intro h
  have hd := congrArg String.data h
  rw [ScreenshotCompare.baselinePath, ScreenshotCompare.diffPath] at hd
  simp only [String.data_append] at hd
  exact slash_name_png_ne sc.baseline_dir.data sc.diff_dir.data n.data hd

/-- A comparator with the constructor's default directories. -/
def scSample : ScreenshotCompare := {}

/-- A store holding only a candidate screenshot, for bootstrap scenarios. -/
def fsShot : FS := fun p => if p = "shot.png" then some pxWhite else none

/-- A store holding a white baseline for `home` and a black candidate, for
regression scenarios. -/
def fsRegression : FS := fun p =>
  if p = "visual/baselines/home.png" then some pxWhite
  else if p = "shot.png" then some pxBlack else none

/-- C3: with no baseline file for `name`, `compare_with_baseline` persists
the decoded candidate as the baseline and returns `(True, 0.0, None)`, and
a second call with the same candidate and name returns `(True, 0.0, None)`
again, leaving the store unchanged.  The threshold hypothesis is the lower
end of the documented domain `0.0-1.0` of the `threshold` argument. -/
theorem compare_with_baseline_bootstrap_idempotent (sc : ScreenshotCompare)
    (fs : FS) (sp n : String) (img : Image) (t : ℚ) (sd : Bool)
    (hb : fs (sc.baselinePath n) = none) (hs : fs sp = some img) (ht : 0 ≤ t) :
    compare_with_baseline sc fs sp n t sd
        = some ((true, 0, none), fs.write (sc.baselinePath n) img)
      ∧ (fs.write (sc.baselinePath n) img) (sc.baselinePath n) = some img
      ∧ compare_with_baseline sc (fs.write (sc.baselinePath n) img) sp n t sd
        = some ((true, 0, none), fs.write (sc.baselinePath n) img) := by
  have hwbp : (fs.write (sc.baselinePath n) img) (sc.baselinePath n) = some img := by
    simp [FS.write]
  have hwsp : (fs.write (sc.baselinePath n) img) sp = some img := by
    by_cases hsp : sp = sc.baselinePath n
    · simp [FS.write, hsp]
    · simp [FS.write, hsp, hs]
  refine ⟨?_, hwbp, ?_⟩
  · simp only [compare_with_baseline, hb, save_baseline, hs]
  · have hr : compare_images_core img img t = (true, 0) :=
      compare_images_core_self img t ht
    simp only [compare_with_baseline, hwbp, hwsp, hr]
    simp

/-- C3 witness: an empty baseline store, candidate `shot.png`, name `home`,
threshold `0.05`. -/
theorem compare_with_baseline_bootstrap_idempotent_witness :
    compare_with_baseline scSample fsShot "shot.png" "home" (1 / 20) true
        = some ((true, 0, none),
            fsShot.write (scSample.baselinePath "home") pxWhite)
      ∧ (fsShot.write (scSample.baselinePath "home") pxWhite)
          (scSample.baselinePath "home") = some pxWhite
      ∧ compare_with_baseline scSample
          (fsShot.write (scSample.baselinePath "home") pxWhite)
          "shot.png" "home" (1 / 20) true
        = some ((true, 0, none),
            fsShot.write (scSample.baselinePath "home") pxWhite) :=
  compare_with_baseline_bootstrap_idempotent scSample fsShot "shot.png" "home"
    pxWhite (1 / 20) true (by decide) (by decide) (by norm_num)

/-- Evaluating the comparison of the two one-pixel samples: the ratio is
`765/765 = 1`, which fails the threshold `0.05`. -/
theorem px_compare_fails :
    compare_images_core pxWhite pxBlack (1 / 20) = (false, 1) := by
  unfold compare_images_core pxWhite pxBlack solidImage
  norm_num [Image.size, diffPixels, chanDist, Nat.dist]

/-- C4: when a baseline exists and the comparison fails, the call leaves the
stored baseline file's content untouched (whether or not a diff artifact is
written): the only file the failing branch may write is the diff artifact,
whose path always differs from the baseline's. -/
theorem compare_with_baseline_keeps_baseline (sc : ScreenshotCompare)
    (fs : FS) (sp n : String) (t : ℚ) (sd : Bool) (b s : Image)
    (hb : fs (sc.baselinePath n) = some b) (hs : fs sp = some s)
    (hfail : (compare_images_core b s t).1 = false) :
    (compare_with_baseline sc fs sp n t sd).map
        (fun p => p.2 (sc.baselinePath n))
      = some (some b) := by
  simp only [compare_with_baseline, hb, hs]
  by_cases hsd : sd = true
  · rw [if_pos ⟨hfail, hsd⟩]
    simp only [create_diff_image, hb, hs, Option.map_some']
    simp [FS.write, baselinePath_ne_diffPath sc n, hb]
  · rw [if_neg (by simp [hsd])]
    simp [hb]

/-- C4 witness: white baseline, black candidate, threshold `0.05`, with
diff saving on (the branch that writes the diff artifact). -/
theorem compare_with_baseline_keeps_baseline_witness :
    (compare_with_baseline scSample fsRegression "shot.png" "home" (1 / 20)
        true).map (fun p => p.2 (scSample.baselinePath "home"))
      = some (some pxWhite) :=
  compare_with_baseline_keeps_baseline scSample fsRegression "shot.png" "home"
    (1 / 20) true pxWhite pxBlack (by decide) (by decide)
    (by rw [px_compare_fails])

/-- C7: with an existing baseline, `compare_with_baseline` returns the
comparison's `(is_similar, ratio)` unchanged, plus the deterministic path
`<diff_dir>/<name>_diff.png` exactly when the comparison failed and
`save_diff` is set, `None` otherwise. -/
theorem compare_with_baseline_branches (sc : ScreenshotCompare) (fs : FS)
    (sp n : String) (t : ℚ) (sd : Bool) (b s : Image)
    (hb : fs (sc.baselinePath n) = some b) (hs : fs sp = some s) :
    (compare_with_baseline sc fs sp n t sd).map Prod.fst
      = some ((compare_images_core b s t).1, (compare_images_core b s t).2,
          if (compare_images_core b s t).1 = false ∧ sd = true
          then some (sc.diffPath n) else none) := by
  simp only [compare_with_baseline, hb, hs]
  by_cases hcond : (compare_images_core b s t).1 = false ∧ sd = true
  · rw [if_pos hcond, if_pos hcond]
    simp [create_diff_image, hb, hs]
  · rw [if_neg hcond, if_neg hcond]
    simp

/-- C7 witness: the failing branch with diff saving on. -/
theorem compare_with_baseline_branches_witness :
    (compare_with_baseline scSample fsRegression "shot.png" "home" (1 / 20)
        true).map Prod.fst
      = some ((compare_images_core pxWhite pxBlack (1 / 20)).1,
          (compare_images_core pxWhite pxBlack (1 / 20)).2,
          if (compare_images_core pxWhite pxBlack (1 / 20)).1 = false
              ∧ true = true
          then some (scSample.diffPath "home") else none) :=
  compare_with_baseline_branches scSample fsRegression "shot.png" "home"
    (1 / 20) true pxWhite pxBlack (by decide) (by decide)

/-- C5, amended behavior of `compare_regions`: on the normal return path
both fixed-name temp files have been unlinked; but when the inner
`compare_images` call raises, the `unlink` statements after it never run
(there is no `try/finally`), so both temp files are still present when the
exception leaves the call. -/
theorem compare_regions_cleanup (sc : ScreenshotCompare) (fs : FS)
    (p1 p2 : String) (reg : ℕ × ℕ × ℕ × ℕ) (t : ℚ) (i1 i2 : Image)
    (h1 : fs p1 = some i1) (h2 : fs p2 = some i2) :
    ((compare_regions sc fs p1 p2 reg t false).2 sc.tempPath1 = none
      ∧ (compare_regions sc fs p1 p2 reg t false).2 sc.tempPath2 = none)
    ∧ ((compare_regions sc fs p1 p2 reg t true).2 sc.tempPath1).isSome = true
    ∧ ((compare_regions sc fs p1 p2 reg t true).2 sc.tempPath2).isSome = true := by
  have herase1 : ∀ g : FS,
      ((g.erase sc.tempPath1).erase sc.tempPath2) sc.tempPath1 = none := by
    intro g
    by_cases he : sc.tempPath1 = sc.tempPath2
    · simp [FS.erase, he]
    · simp [FS.erase, he]
  have herase2 : ∀ g : FS,
      ((g.erase sc.tempPath1).erase sc.tempPath2) sc.tempPath2 = none := by
    intro g; simp [FS.erase]
  have hfault : compare_regions sc fs p1 p2 reg t true
      = (Except.error "inner comparison raised",
          (fs.write sc.tempPath1 (crop i1 reg)).write sc.tempPath2
            (crop i2 reg)) := by
    simp [compare_regions, h1, h2]
  have hok : (compare_regions sc fs p1 p2 reg t false).2
      = (((fs.write sc.tempPath1 (crop i1 reg)).write sc.tempPath2
          (crop i2 reg)).erase sc.tempPath1).erase sc.tempPath2 := by
    by_cases he : sc.tempPath1 = sc.tempPath2
    · simp [compare_regions, h1, h2, compare_images, FS.write, he]
    · simp [compare_regions, h1, h2, compare_images, FS.write, he]
  refine ⟨⟨?_, ?_⟩, ?_, ?_⟩
  · rw [hok]; exact herase1 _
  · rw [hok]; exact herase2 _
  · rw [hfault]
    by_cases he : sc.tempPath1 = sc.tempPath2 <;> simp [FS.write, he]
  · rw [hfault]; simp [FS.write]

/-- C5 witness: concrete one-pixel inputs, exercising both the clean normal
path and the leaking exception path. -/
theorem compare_regions_cleanup_witness :
    ((compare_regions scSample fsRegression "shot.png" "shot.png" (0, 0, 1, 1)
          (1 / 20) false).2 scSample.tempPath1 = none
      ∧ (compare_regions scSample fsRegression "shot.png" "shot.png" (0, 0, 1, 1)
          (1 / 20) false).2 scSample.tempPath2 = none)
    ∧ ((compare_regions scSample fsRegression "shot.png" "shot.png" (0, 0, 1, 1)
          (1 / 20) true).2 scSample.tempPath1).isSome = true
    ∧ ((compare_regions scSample fsRegression "shot.png" "shot.png" (0, 0, 1, 1)
          (1 / 20) true).2 scSample.tempPath2).isSome = true :=
  compare_regions_cleanup scSample fsRegression "shot.png" "shot.png"
    (0, 0, 1, 1) (1 / 20) pxBlack pxBlack (by decide) (by decide)

/-- C5 counterexample: when the inner comparison raises, `compare_regions`
returns with the first temp file still present, refuting cleanup on every
exit path. -/
theorem compare_regions_leak_counterexample :
    (compare_regions scSample fsRegression "shot.png" "shot.png" (0, 0, 1, 1)
        (1 / 20) true).2 scSample.tempPath1 ≠ none
    ∧ (compare_regions scSample fsRegression "shot.png" "shot.png" (0, 0, 1, 1)
        (1 / 20) true).1 = Except.error "inner comparison raised" := by
  constructor
  · intro h
    have hfault : compare_regions scSample fsRegression "shot.png" "shot.png"
        (0, 0, 1, 1) (1 / 20) true
        = (Except.error "inner comparison raised",
            (fsRegression.write scSample.tempPath1 (crop pxBlack (0, 0, 1, 1))).write
              scSample.tempPath2 (crop pxBlack (0, 0, 1, 1))) := by
      simp [compare_regions, fsRegression]
    rw [hfault] at h
    by_cases he : scSample.tempPath1 = scSample.tempPath2 <;>
      simp [FS.write, he] at h
  · simp [compare_regions, fsRegression]

/-- Concrete diff-directory listing and failure pattern for the
housekeeping claims: deleting `a.png` fails, deleting `b.png` would
succeed. -/
def fsDiffs : FS := fun p =>
  if p = "visual/diffs/a.png" then some pxWhite
  else if p = "visual/diffs/b.png" then some pxBlack else none

def failsOnA : String → Bool := fun p => p = "visual/diffs/a.png"

/-- C6 counterexample: with two stored diff files whose first deletion
fails, `clear_diffs` stops at the failure: the second file, whose own
deletion would have succeeded, is never attempted and survives. -/
theorem clear_diffs_abort_counterexample :
    (clear_diffs ["visual/diffs/a.png", "visual/diffs/b.png"] fsDiffs
        failsOnA).2 "visual/diffs/b.png" ≠ none
    ∧ failsOnA "visual/diffs/b.png" = false
    ∧ (clear_diffs ["visual/diffs/a.png", "visual/diffs/b.png"] fsDiffs
        failsOnA).1 = Except.error "visual/diffs/a.png" := by
  refine ⟨by decide, by decide, ?_⟩
  simp [clear_diffs, unlink_all, failsOnA]

/-- C6, amended behavior: the deletion loop attempts files in listing
order and aborts at the first failing `unlink`, which propagates; files
before the failure are deleted, the failing file and every later file are
left in place (`clear_baselines` is the same loop over the other
directory's listing). -/
theorem clear_diffs_first_failure_aborts (l1 : List String) (f : String)
    (l2 : List String) (fs : FS) (ufails : String → Bool)
    (h1 : ∀ g ∈ l1, ufails g = false) (h2 : ufails f = true) :
    clear_diffs (l1 ++ f :: l2) fs ufails
      = (Except.error f, erase_all fs l1) := by
  induction l1 generalizing fs with
  | nil => simp [clear_diffs, unlink_all, h2, erase_all]
  | cons a tl ih =>
    have ha : ufails a = false := h1 a (List.mem_cons_self a tl)
    have hstep : clear_diffs ((a :: tl) ++ f :: l2) fs ufails
        = clear_diffs (tl ++ f :: l2) (fs.erase a) ufails := by
      simp [clear_diffs, unlink_all, ha]
    rw [hstep, ih (fs.erase a) (fun g hg => h1 g (List.mem_cons_of_mem a hg))]
    simp [erase_all]

/-- C6 witness for the amended loop behavior: the file listed before the
failing one is deleted, then the failure aborts the loop. -/
theorem clear_diffs_first_failure_aborts_witness :
    clear_diffs (["visual/diffs/b.png"] ++ "visual/diffs/a.png" :: []) fsDiffs
        failsOnA
      = (Except.error "visual/diffs/a.png",
          erase_all fsDiffs ["visual/diffs/b.png"]) :=
  clear_diffs_first_failure_aborts ["visual/diffs/b.png"] "visual/diffs/a.png"
    [] fsDiffs failsOnA (by decide) (by decide)

theorem range_map_getD {α : Type} (n i : ℕ) (f : ℕ → α) (d : α) (h : i < n) :
    ((List.range n).map f).getD i d = f i := by
  rw [List.getD_eq_getElem?_getD, List.getElem?_map, List.getElem?_range h]
  rfl

/-- Reading one pixel of a paste: positions inside the pasted rectangle
show the pasted image, the rest show the canvas. -/
theorem paste_getPixel (canvas img : Image) (x0 y0 r c : ℕ)
    (hr : r < canvas.height) (hc : c < canvas.width) :
    (paste canvas img x0 y0).getPixel r c
      = if y0 ≤ r ∧ r < y0 + img.height ∧ x0 ≤ c ∧ c < x0 + img.width then
          img.getPixel (r - y0) (c - x0)
        else canvas.getPixel r c := by
  have hW : 0 < canvas.width := by omega
  have hidx : r * canvas.width + c < canvas.width * canvas.height := by
    calc r * canvas.width + c
        < r * canvas.width + canvas.width := by omega
      _ = (r + 1) * canvas.width := by ring
      _ ≤ canvas.height * canvas.width := Nat.mul_le_mul_right _ hr
      _ = canvas.width * canvas.height := Nat.mul_comm _ _
  have hdiv : (r * canvas.width + c) / canvas.width = r := by
    rw [Nat.mul_comm r canvas.width, Nat.mul_add_div hW, Nat.div_eq_of_lt hc]
    omega
  have hmod : (r * canvas.width + c) % canvas.width = c := by
    rw [Nat.mul_comm r canvas.width, Nat.mul_add_mod, Nat.mod_eq_of_lt hc]
  show ((List.range (canvas.width * canvas.height)).map _).getD
      (r * canvas.width + c) (0, 0, 0) = _
  rw [range_map_getD _ _ _ _ hidx]
  simp only [hdiv, hmod]

theorem layoutCurrent_width (b c : Image) : (layoutCurrent b c).width = b.width := by
  unfold layoutCurrent
  by_cases h : b.size ≠ c.size
  · simp [h, resize]
  · rw [if_neg h]
    have hsz := not_not.mp h
    simp only [Image.size, Prod.mk.injEq] at hsz
    exact hsz.1.symm

theorem layoutCurrent_height (b c : Image) : (layoutCurrent b c).height = b.height := by
  unfold layoutCurrent
  by_cases h : b.size ≠ c.size
  · simp [h, resize]
  · rw [if_neg h]
    have hsz := not_not.mp h
    simp only [Image.size, Prod.mk.injEq] at hsz
    exact hsz.2.symm

/-- C8: `create_diff_image` writes at `output_path` a composite whose width
is three baseline widths and whose height is the baseline height, showing,
left to right, the baseline, the candidate as laid out (resized to the
baseline's dimensions when they differ), and the per-channel absolute
difference amplified tenfold and clipped at 255. -/
theorem create_diff_image_layout (fs : FS) (bp cp op : String) (b c : Image)
    (hb : fs bp = some b) (hc : fs cp = some c)
    (y x : ℕ) (hy : y < b.height) (hx : x < b.width) :
    create_diff_image fs bp cp op = some (fs.write op (diffComposite b c))
    ∧ (diffComposite b c).width = b.width * 3
    ∧ (diffComposite b c).height = b.height
    ∧ (diffComposite b c).getPixel y x = b.getPixel y x
    ∧ (diffComposite b c).getPixel y (b.width + x)
        = (layoutCurrent b c).getPixel y x
    ∧ (diffComposite b c).getPixel y (b.width * 2 + x)
        = (point10 (diffImage b (layoutCurrent b c))).getPixel y x := by
  refine ⟨by simp [create_diff_image, hb, hc], rfl, rfl, ?_, ?_, ?_⟩
  · show (paste (paste (paste (Image.new (b.width * 3) b.height) b 0 0)
        (layoutCurrent b c) b.width 0)
        (point10 (diffImage b (layoutCurrent b c))) (b.width * 2) 0).getPixel y x
      = b.getPixel y x
    set cur := layoutCurrent b c with hcur
    set dimg := point10 (diffImage b cur) with hdimg
    set C0 := Image.new (b.width * 3) b.height with hC0
    set C1 := paste C0 b 0 0 with hC1
    set C2 := paste C1 cur b.width 0 with hC2
    have hyH2 : y < C2.height := hy
    have hxW2 : x < C2.width := by show x < b.width * 3; omega
    rw [paste_getPixel C2 dimg (b.width * 2) 0 y x hyH2 hxW2]
    rw [if_neg (by intro hcon; have := hcon.2.2.1; omega)]
    have hyH1 : y < C1.height := hy
    have hxW1 : x < C1.width := by show x < b.width * 3; omega
    rw [paste_getPixel C1 cur b.width 0 y x hyH1 hxW1]
    rw [if_neg (by intro hcon; have := hcon.2.2.1; omega)]
    have hyH0 : y < C0.height := hy
    have hxW0 : x < C0.width := by show x < b.width * 3; omega
    rw [paste_getPixel C0 b 0 0 y x hyH0 hxW0]
    rw [if_pos ⟨Nat.zero_le y, by omega, Nat.zero_le x, by omega⟩]
    simp
  · show (paste (paste (paste (Image.new (b.width * 3) b.height) b 0 0)
        (layoutCurrent b c) b.width 0)
        (point10 (diffImage b (layoutCurrent b c))) (b.width * 2) 0).getPixel y
          (b.width + x)
      = (layoutCurrent b c).getPixel y x
    set cur := layoutCurrent b c with hcur
    set dimg := point10 (diffImage b cur) with hdimg
    set C0 := Image.new (b.width * 3) b.height with hC0
    set C1 := paste C0 b 0 0 with hC1
    set C2 := paste C1 cur b.width 0 with hC2
    have hcw2 : cur.width = b.width := layoutCurrent_width b c
    have hch2 : cur.height = b.height := layoutCurrent_height b c
    have hyH2 : y < C2.height := hy
    have hxW2 : b.width + x < C2.width := by show b.width + x < b.width * 3; omega
    rw [paste_getPixel C2 dimg (b.width * 2) 0 y (b.width + x) hyH2 hxW2]
    rw [if_neg (by intro hcon; have := hcon.2.2.1; omega)]
    have hyH1 : y < C1.height := hy
    have hxW1 : b.width + x < C1.width := by show b.width + x < b.width * 3; omega
    rw [paste_getPixel C1 cur b.width 0 y (b.width + x) hyH1 hxW1]
    rw [if_pos ⟨Nat.zero_le y, by rw [Nat.zero_add, hch2]; exact hy,
      Nat.le_add_right _ _, by rw [hcw2]; omega⟩]
    rw [Nat.sub_zero, Nat.add_sub_cancel_left]
  · show (paste (paste (paste (Image.new (b.width * 3) b.height) b 0 0)
        (layoutCurrent b c) b.width 0)
        (point10 (diffImage b (layoutCurrent b c))) (b.width * 2) 0).getPixel y
          (b.width * 2 + x)
      = (point10 (diffImage b (layoutCurrent b c))).getPixel y x
    set cur := layoutCurrent b c with hcur
    set dimg := point10 (diffImage b cur) with hdimg
    set C0 := Image.new (b.width * 3) b.height with hC0
    set C1 := paste C0 b 0 0 with hC1
    set C2 := paste C1 cur b.width 0 with hC2
    have hdw2 : dimg.width = b.width := rfl
    have hdh2 : dimg.height = b.height := rfl
    have hyH2 : y < C2.height := hy
    have hxW2 : b.width * 2 + x < C2.width := by
      show b.width * 2 + x < b.width * 3; omega
    rw [paste_getPixel C2 dimg (b.width * 2) 0 y (b.width * 2 + x) hyH2 hxW2]
    rw [if_pos ⟨Nat.zero_le y, by rw [Nat.zero_add, hdh2]; exact hy,
      Nat.le_add_right _ _, by rw [hdw2]; omega⟩]
    rw [Nat.sub_zero, Nat.add_sub_cancel_left]

/-- C8 witness at a concrete pair of same-size one-pixel images. -/
theorem create_diff_image_layout_witness :
    create_diff_image fsRegression "visual/baselines/home.png" "shot.png"
        "visual/diffs/home_diff.png"
      = some (fsRegression.write "visual/diffs/home_diff.png"
          (diffComposite pxWhite pxBlack))
    ∧ (diffComposite pxWhite pxBlack).width = pxWhite.width * 3
    ∧ (diffComposite pxWhite pxBlack).height = pxWhite.height
    ∧ (diffComposite pxWhite pxBlack).getPixel 0 0 = pxWhite.getPixel 0 0
    ∧ (diffComposite pxWhite pxBlack).getPixel 0 (pxWhite.width + 0)
        = (layoutCurrent pxWhite pxBlack).getPixel 0 0
    ∧ (diffComposite pxWhite pxBlack).getPixel 0 (pxWhite.width * 2 + 0)
        = (point10 (diffImage pxWhite (layoutCurrent pxWhite pxBlack))).getPixel 0 0 :=
  create_diff_image_layout fsRegression "visual/baselines/home.png" "shot.png"
    "visual/diffs/home_diff.png" pxWhite pxBlack (by decide) (by decide)
    0 0 (by decide) (by decide)
